import Mathlib

/-!
Shallow embedding of the market-data request-orchestration layer of the
trade-setup-analyzer repository.

Source files embedded here:
* `src/frontend/src/lib/marketData/marketDataPolicy.ts` — policy constants,
  `normalizeTicker`, `calculateBackoffDelay`;
* `src/frontend/src/lib/marketData/marketDataClient.ts` — the
  `MarketDataClient` class (cache, request-state and retry-state maps,
  `fetch`, `handleRateLimit`, `scheduleRetry`, `getRetryState`,
  `getDiagnostics`);
* `src/frontend/src/lib/marketData/fetchMarketData.ts` — the raw-fetch
  collaborator's input-validation front end (API-key check and ticker-format
  check, both of which run before any HTTP request);
* `src/frontend/src/lib/marketData/config.ts` — `MARKET_DATA_CONFIG.provider`
  and the `clearAll()` method of the `MarketDataClient` variant defined there
  (the marketDataClient.ts class has no `clearAll`; the config.ts variant with
  diagnostics counters is the repository's implementation of it).

Modelling conventions: JavaScript millisecond timestamps are `Int`; the
JS `Map` objects are association lists with JS `Map` get/set/delete
semantics; promises are identified by abstract ids (`Nat`); the network
interaction proper (everything in `fetchMarketData` after input validation)
is an oracle parameter.  JS numbers carried as opaque payload
(OHLCV values, `latestPrice`) are modelled as `Int`: no embedded code does
arithmetic on them, they are only stored, compared and printed.
-/

set_option autoImplicit false

/-! ### Policy constants and pure functions (marketDataPolicy.ts) -/

/-- `CACHE_TTL_MS = 60_000` — how long to reuse successful results. -/
def CACHE_TTL_MS : Int := 60000

/-- `MIN_REQUEST_INTERVAL_MS = 5_000` — minimum time between network calls per ticker. -/
def MIN_REQUEST_INTERVAL_MS : Int := 5000

/-- `MAX_RETRIES = 3`. -/
def MAX_RETRIES : Nat := 3

/-- `BASE_DELAY_MS = 10_000`. -/
def BASE_DELAY_MS : Int := 10000

/-- `MAX_DELAY_MS = 60_000`. -/
def MAX_DELAY_MS : Int := 60000

/-- JS `String.prototype.trim` over the character list: drop whitespace
from both ends. -/
def trimChars (l : List Char) : List Char :=
  ((l.dropWhile Char.isWhitespace).reverse.dropWhile Char.isWhitespace).reverse

/-- `normalizeTicker(ticker) { return ticker.trim().toUpperCase(); }` —
trim and per-character uppercase, written over the character list (the
library's `String.trim`/`String.toUpper` compute the same strings but are
defined by well-founded recursion on byte positions, which the kernel
cannot evaluate). -/
def normalizeTicker (ticker : String) : String :=
  String.mk ((trimChars ticker.data).map Char.toUpper)

/-- `calculateBackoffDelay(attemptNumber) = min(BASE_DELAY_MS * 2^(attemptNumber-1), MAX_DELAY_MS)`.
The source computes `Math.pow(2, attemptNumber - 1)` over JS numbers; every
call site passes `attemptNumber ≥ 1`, where this `Nat`-subtraction embedding
agrees with the source. -/
def calculateBackoffDelay (attemptNumber : Nat) : Int :=
  min (BASE_DELAY_MS * 2 ^ (attemptNumber - 1)) MAX_DELAY_MS

/-! ### Result types (types.ts) -/

/-- `MarketDataErrorCode` string union from types.ts. -/
inductive MarketDataErrorCode where
  | rate_limit
  | invalid_ticker
  | network_error
  | timeout
  | no_data
  | api_error
  | config_error
  | unknown
deriving DecidableEq, Repr

/-- The TS literal of an error code (used in diagnostics `status` strings). -/
def MarketDataErrorCode.asString : MarketDataErrorCode → String
  | .rate_limit => "rate_limit"
  | .invalid_ticker => "invalid_ticker"
  | .network_error => "network_error"
  | .timeout => "timeout"
  | .no_data => "no_data"
  | .api_error => "api_error"
  | .config_error => "config_error"
  | .unknown => "unknown"

/-- `PricePoint` from types.ts.  `open` is a Lean keyword, hence `openP`. -/
structure PricePoint where
  timestamp : String
  openP : Int
  high : Int
  low : Int
  close : Int
  volume : Int
deriving DecidableEq, Repr

/-- `MarketDataResult` from types.ts (success shape; the optional `error`
field is never set on values produced by the collaborator, and the client's
`'error' in r` type guard keys on its absence). -/
structure MarketDataResult where
  ticker : String
  latestPrice : Int
  timestamp : String
  isRealtime : Bool
  pricePoints : List PricePoint
  provider : String
deriving DecidableEq, Repr

/-- `MarketDataError` from types.ts. -/
structure MarketDataError where
  ticker : String
  error : String
  provider : String
  errorCode : MarketDataErrorCode
  isRateLimited : Bool
  rawResponse : Option String
deriving DecidableEq, Repr

/-- `MarketDataResult | MarketDataError`, discriminated exactly like the
client's type guard `(r) => 'error' in r`. -/
inductive FetchResult where
  | success (r : MarketDataResult)
  | failure (e : MarketDataError)
deriving DecidableEq, Repr

/-! ### JS `Map` semantics over association lists -/

/-- `Map.prototype.get`. -/
def mapGet {α : Type} : List (String × α) → String → Option α
  | [], _ => none
  | p :: rest, k => if p.1 = k then some p.2 else mapGet rest k

/-- `Map.prototype.set`: update in place (preserving insertion order) when
the key is present, append otherwise. -/
def mapSet {α : Type} : List (String × α) → String → α → List (String × α)
  | [], k, v => [(k, v)]
  | p :: rest, k, v => if p.1 = k then (k, v) :: rest else p :: mapSet rest k v

/-- `Map.prototype.delete` (a JS `Map` holds at most one entry per key;
removing every matching entry coincides with it on all states the client
builds). -/
def mapDelete {α : Type} : List (String × α) → String → List (String × α)
  | [], _ => []
  | p :: rest, k => if p.1 = k then mapDelete rest k else p :: mapDelete rest k

theorem mapGet_mapSet {α : Type} (m : List (String × α)) (k k' : String) (v : α) :
    mapGet (mapSet m k v) k' = if k' = k then some v else mapGet m k' := by
  induction m with
  | nil =>
    by_cases h : k' = k
    · subst h; simp [mapSet, mapGet]
    · have hk : ¬k = k' := fun hh => h hh.symm
      simp [mapSet, mapGet, h, hk]
  | cons p rest ih =>
    by_cases hp : p.1 = k
    · by_cases h : k' = k
      · subst h; simp [mapSet, mapGet, hp]
      · have hk : ¬k = k' := fun hh => h hh.symm
        simp [mapSet, mapGet, hp, h, hk]
    · by_cases h : p.1 = k'
      · have hk : ¬k' = k := fun hh => hp (h.trans hh)
        simp [mapSet, mapGet, hp, h, hk]
      · simp [mapSet, mapGet, hp, h, ih]

theorem mapGet_mapDelete {α : Type} (m : List (String × α)) (k k' : String) :
    mapGet (mapDelete m k) k' = if k' = k then none else mapGet m k' := by
  induction m with
  | nil => by_cases h : k' = k <;> simp [mapDelete, mapGet, h]
  | cons p rest ih =>
    by_cases hp : p.1 = k
    · by_cases h : k' = k
      · subst h; simp [mapDelete, mapGet, hp, ih]
      · have hpk' : ¬p.1 = k' := fun hh => h (hh.symm.trans hp)
        have hk : ¬k = k' := fun hh => h hh.symm
        simp [mapDelete, mapGet, hp, h, hpk', hk, ih]
    · by_cases h : p.1 = k'
      · have hk : ¬k' = k := fun hh => hp (h.trans hh)
        simp [mapDelete, mapGet, hp, h, hk]
      · simp [mapDelete, mapGet, hp, h, ih]

/-! ### MarketDataClient state (marketDataClient.ts) -/

/-- `CacheEntry { result, timestamp }`. -/
structure CacheEntry where
  result : MarketDataResult
  timestamp : Int
deriving DecidableEq, Repr

/-- `RequestState { lastRequestTime, inFlightPromise }`; the in-flight
promise is identified by an abstract id. -/
structure RequestState where
  lastRequestTime : Int
  inFlightPromise : Option Nat
deriving DecidableEq, Repr

/-- `RetryState { attemptCount, nextRetryTime, timeoutId }`. -/
structure RetryState where
  attemptCount : Nat
  nextRetryTime : Option Int
  timeoutId : Option Nat
deriving DecidableEq, Repr

/-- `DiagnosticData.lastRequest` entry. -/
structure LastRequest where
  ticker : String
  url : String
  timestamp : Int
deriving DecidableEq, Repr

/-- `DiagnosticData.lastResponse` entry. -/
structure LastResponse where
  status : String
  bodyPreview : String
  timestamp : Int
deriving DecidableEq, Repr

/-- The private fields of a `MarketDataClient` instance.  `dispatchLog` is a
ghost event log, not a field of the TS class: `stepDispatch` (and nothing
else) appends `(key, time)` each time `executeRequest` — hence the raw-fetch
collaborator — is invoked, so that dispatch-count and dispatch-spacing
properties can be stated. -/
structure ClientState where
  cache : List (String × CacheEntry)
  requestStates : List (String × RequestState)
  retryStates : List (String × RetryState)
  cacheHits : Nat
  cacheMisses : Nat
  lastRequestDetails : Option LastRequest
  lastResponseDetails : Option LastResponse
  dispatchLog : List (String × Int)
deriving DecidableEq, Repr

/-- A freshly constructed `MarketDataClient`. -/
def initialClientState : ClientState :=
  { cache := []
    requestStates := []
    retryStates := []
    cacheHits := 0
    cacheMisses := 0
    lastRequestDetails := none
    lastResponseDetails := none
    dispatchLog := [] }

/-! ### The raw-fetch collaborator's validation front end (fetchMarketData.ts) -/

/-- `MARKET_DATA_CONFIG.provider` (config.ts). -/
def MARKET_DATA_PROVIDER : String := "Alpha Vantage"

/-- The regex test `/^[A-Z]{1,5}$/` of fetchMarketData.ts (the preceding
`!cleanTicker` falsiness check is subsumed: the empty string fails the
length-≥-1 condition). -/
def validTickerFormat (t : String) : Bool :=
  decide (1 ≤ t.length) && decide (t.length ≤ 5) &&
    t.data.all (fun c => decide ('A' ≤ c) && decide (c ≤ 'Z'))

/-- The `config_error` result fetchMarketData.ts returns when
`validateApiKey()` fails (its `error` text depends on the failure; the
claims never inspect it, so the validator's message is a parameter). -/
def configErrorResult (ticker msg : String) : MarketDataError :=
  { ticker := normalizeTicker ticker
    error := msg
    provider := MARKET_DATA_PROVIDER
    errorCode := .config_error
    isRateLimited := false
    rawResponse := none }

/-- The `invalid_ticker` result of fetchMarketData.ts's input validation. -/
def invalidTickerResult (cleanTicker : String) : MarketDataError :=
  { ticker := cleanTicker
    error := "Invalid ticker symbol. Please enter a valid stock symbol (e.g., AAPL, MSFT)."
    provider := MARKET_DATA_PROVIDER
    errorCode := .invalid_ticker
    isRateLimited := false
    rawResponse := none }

/-- `fetchMarketData(ticker)`: API-key validation, then ticker-format
validation — both before the HTTP request is built — then the network
interaction, whose outcome is the oracle `net`. -/
def fetchMarketDataModel (apiKeyValid : Bool) (apiKeyMsg : String)
    (net : FetchResult) (ticker : String) : FetchResult :=
  if !apiKeyValid then .failure (configErrorResult ticker apiKeyMsg)
  else
    let cleanTicker := normalizeTicker ticker
    if !validTickerFormat cleanTicker then .failure (invalidTickerResult cleanTicker)
    else net

/-! ### MarketDataClient operations, as atomic segments between the event
loop's suspension points.  `fetch` has three suspension points: the
spacing wait, and the dispatch/settle pair of the network promise; every
other statement of the class is synchronous. -/

/-- Outcome of the synchronous prefix of `fetch` (entry up to the first
suspension point or early return). -/
inductive StepAOutcome where
  | cacheHit (r : MarketDataResult)
  | awaitExisting (pid : Nat)
  | staleReturn (r : MarketDataResult)
  | sleep (wake : Int)
  | dispatchNow
deriving DecidableEq, Repr

/-- The miss continuation of `fetch`'s synchronous prefix: increment the
miss counter, then the in-flight check, then the spacing check (with the
possibly stale `cached` entry still in scope for the stale-return branch). -/
def stepAMiss (s : ClientState) (key : String) (cached : Option CacheEntry)
    (now : Int) : StepAOutcome × ClientState :=
  let s1 := { s with cacheMisses := s.cacheMisses + 1 }
  match mapGet s1.requestStates key with
  | none => (.dispatchNow, s1)
  | some rs =>
    match rs.inFlightPromise with
    | some pid => (.awaitExisting pid, s1)
    | none =>
      if now - rs.lastRequestTime < MIN_REQUEST_INTERVAL_MS then
        match cached with
        | some c => (.staleReturn c.result, s1)
        | none =>
          (.sleep (now + (MIN_REQUEST_INTERVAL_MS - (now - rs.lastRequestTime))), s1)
      else (.dispatchNow, s1)

/-- Synchronous prefix of `fetch(ticker)` at entry time `now`: normalize,
cache check (fresh hit returns immediately and bumps the hit counter),
otherwise the miss continuation. -/
def stepA (s : ClientState) (ticker : String) (now : Int) :
    StepAOutcome × ClientState :=
  let key := normalizeTicker ticker
  match mapGet s.cache key with
  | some c =>
    if now - c.timestamp < CACHE_TTL_MS then
      (.cacheHit c.result, { s with cacheHits := s.cacheHits + 1 })
    else stepAMiss s key (some c) now
  | none => stepAMiss s key none now

/-- The dispatch block of `fetch`: `executeRequest` records the request
descriptor and invokes the collaborator (ghost-logged), and `fetch` stores
the in-flight promise with `lastRequestTime := now` — `now` being the
timestamp captured at `fetch`'s entry (`tArrival`), not the actual dispatch
time `tReal` (they differ after a spacing wait). -/
def stepDispatch (s : ClientState) (key : String) (tArrival tReal : Int)
    (pid : Nat) : ClientState :=
  { s with
    lastRequestDetails := some
      { ticker := key
        url := "https://query1.finance.yahoo.com/v8/finance/chart/" ++ key
          ++ "?interval=5m&range=1d"
        timestamp := tReal }
    requestStates := mapSet s.requestStates key
      { lastRequestTime := tArrival, inFlightPromise := some pid }
    dispatchLog := s.dispatchLog ++ [(key, tReal)] }

/-- Private `clearRetryState(ticker)`: cancel any pending timer and delete
the entry. -/
def clearRetryState (s : ClientState) (ticker : String) : ClientState :=
  { s with retryStates := mapDelete s.retryStates ticker }

/-- Private `handleRateLimit(ticker, error)` (invoked with an
already-normalized key).  Loads or creates the retry state, increments
`attemptCount`; past `MAX_RETRIES` it deletes the state and returns the
error re-labelled as exhausted with `isRateLimited: false`; otherwise it
stores `nextRetryTime = Date.now() + calculateBackoffDelay(attemptCount)`
(`now` here is that `Date.now()` call) and returns the error unchanged. -/
def handleRateLimit (s : ClientState) (ticker : String) (now : Int)
    (error : MarketDataError) : MarketDataError × ClientState :=
  let prev := (mapGet s.retryStates ticker).getD
    { attemptCount := 0, nextRetryTime := none, timeoutId := none }
  let attempts := prev.attemptCount + 1
  if attempts > MAX_RETRIES then
    ({ error with
        error := "Rate limit retries exhausted. Please try again later."
        isRateLimited := false },
     clearRetryState s ticker)
  else
    let backoffDelay := calculateBackoffDelay attempts
    let updated : RetryState :=
      { attemptCount := attempts
        nextRetryTime := some (now + backoffDelay)
        timeoutId := prev.timeoutId }
    (error, { s with retryStates := mapSet s.retryStates ticker updated })

/-- `this.lastResponseDetails` as recorded by `executeRequest` when the
collaborator's promise settles. -/
def responseDetailsOf (r : FetchResult) (now : Int) : LastResponse :=
  match r with
  | .failure e =>
    { status := "error: " ++ e.errorCode.asString
      bodyPreview := e.error
      timestamp := now }
  | .success m =>
    { status := "success"
      bodyPreview := toString m.pricePoints.length
        ++ " price points, latest: $" ++ toString m.latestPrice
      timestamp := now }

/-- `state.inFlightPromise = null` guarded by `if (state)`. -/
def clearInFlight (m : List (String × RequestState)) (key : String) :
    List (String × RequestState) :=
  match mapGet m key with
  | none => m
  | some st => mapSet m key { st with inFlightPromise := none }

/-- The settle block of `fetch`: the collaborator's promise `pid` settles
with raw result `r` at time `now`.  `executeRequest` records the response
descriptor; `fetch` clears the in-flight handle, then classifies: a
rate-limited error runs `handleRateLimit` (the returned value is its
result); a success is cached with `timestamp = Date.now()` and clears the
retry state; any other error is returned with no further mutation. -/
def stepSettle (s : ClientState) (key : String) (r : FetchResult)
    (now : Int) : FetchResult × ClientState :=
  let s1 := { s with lastResponseDetails := some (responseDetailsOf r now) }
  let s2 := { s1 with requestStates := clearInFlight s1.requestStates key }
  match r with
  | .failure e =>
    if e.isRateLimited then
      let (e2, s3) := handleRateLimit s2 key now e
      (.failure e2, s3)
    else (.failure e, s2)
  | .success m =>
    let s3 := { s2 with cache := mapSet s2.cache key { result := m, timestamp := now } }
    (.success m, clearRetryState s3 key)

/-- `scheduleRetry(ticker, callback)`: looks the retry state up under the
RAW ticker (no normalization in the source); a no-op unless the state
exists with a truthy `nextRetryTime`; otherwise replaces any pending timer
with a fresh one (`newTimerId`).  The armed callback later re-enters
`fetch`; only the synchronous mutation is modelled here. -/
def scheduleRetry (s : ClientState) (ticker : String) (newTimerId : Nat) :
    ClientState :=
  match mapGet s.retryStates ticker with
  | none => s
  | some rs =>
    match rs.nextRetryTime with
    | none => s
    | some t =>
      if t = 0 then s  -- JS truthiness: a zero nextRetryTime is falsy
      else
        let armed : RetryState := { rs with timeoutId := some newTimerId }
        { s with retryStates := mapSet s.retryStates ticker armed }

/-- `getRetryState(ticker)`: read-only lookup under the NORMALIZED key. -/
def getRetryState (s : ClientState) (ticker : String) : Option RetryState :=
  mapGet s.retryStates (normalizeTicker ticker)

/-! ### Diagnostics (getDiagnostics) -/

/-- `Math.round(k / 1000)` for an integer numerator `k`:
`Math.round(x) = ⌊x + 1/2⌋`, so this is `⌊(k + 500) / 1000⌋`. -/
def jsRound1000 (k : Int) : Int :=
  Int.fdiv (k + 500) 1000

/-- One element of `cacheStats.cacheEntries`. -/
structure DiagCacheEntry where
  ticker : String
  age : Int
  ttlRemaining : Int
deriving DecidableEq, Repr

/-- One element of `retryHistory`. -/
structure DiagRetryEntry where
  ticker : String
  attemptCount : Nat
  nextRetryTime : Option Int
  backoffDelay : Option Int
deriving DecidableEq, Repr

/-- `DiagnosticData` (cacheStats flattened into `entries`/`hits`/`misses`/
`cacheEntries`). -/
structure DiagnosticData where
  lastRequest : Option LastRequest
  lastResponse : Option LastResponse
  entries : Nat
  hits : Nat
  misses : Nat
  cacheEntries : List DiagCacheEntry
  retryHistory : List DiagRetryEntry
deriving DecidableEq, Repr

/-- `getDiagnostics()` evaluated with `Date.now() = now`: a pure projection
of the state; ages, TTL-remainders and backoff-remainders are computed from
`now` at call time.  The source method contains no assignment to any field
of the class. -/
def getDiagnostics (s : ClientState) (now : Int) : DiagnosticData :=
  { lastRequest := s.lastRequestDetails
    lastResponse := s.lastResponseDetails
    entries := s.cache.length
    hits := s.cacheHits
    misses := s.cacheMisses
    cacheEntries := s.cache.map (fun p =>
      { ticker := p.1
        age := jsRound1000 (now - p.2.timestamp)
        ttlRemaining := max 0 (jsRound1000 (CACHE_TTL_MS - (now - p.2.timestamp))) })
    retryHistory := s.retryStates.map (fun p =>
      { ticker := p.1
        attemptCount := p.2.attemptCount
        nextRetryTime := p.2.nextRetryTime
        backoffDelay :=
          match p.2.nextRetryTime with
          | some t => if t = 0 then none else some (jsRound1000 (t - now))
          | none => none }) }

/-- A `getDiagnostics()` method call: returns the snapshot and the (unchanged)
receiver, reflecting that the method body never writes a field. -/
def getDiagnosticsOp (s : ClientState) (now : Int) : DiagnosticData × ClientState :=
  (getDiagnostics s now, s)

/-! ### Big-step sequential `fetch` -/

/-- Result of one complete, non-interfered `fetch(ticker)` cycle. -/
structure FetchRun where
  value : FetchResult
  state : ClientState
  dispatchTime : Option Int
deriving DecidableEq, Repr

/-- One `fetch(ticker)` call running to completion with no interleaved
operation: entry at `tCall`, the collaborator's promise (id `pid`) settling
at `tSettle`; `apiKeyValid`/`apiKeyMsg`/`net` parameterize the collaborator.
Composed from the atomic segments `stepA` → (`stepDispatch` → `stepSettle`).
`none` when the synchronous prefix finds an in-flight promise: that
situation involves a second, still-running call and is outside this
sequential big step (the interleaved claims use the segments directly). -/
def fetchSeq (s : ClientState) (ticker : String) (tCall tSettle : Int)
    (apiKeyValid : Bool) (apiKeyMsg : String) (net : FetchResult)
    (pid : Nat) : Option FetchRun :=
  let key := normalizeTicker ticker
  match stepA s ticker tCall with
  | (.cacheHit r, s1) =>
    some { value := .success r, state := s1, dispatchTime := none }
  | (.awaitExisting _, _) => none
  | (.staleReturn r, s1) =>
    some { value := .success r, state := s1, dispatchTime := none }
  | (.sleep wake, s1) =>
    let s2 := stepDispatch s1 key tCall wake pid
    let r := fetchMarketDataModel apiKeyValid apiKeyMsg net key
    let vs := stepSettle s2 key r tSettle
    some { value := vs.1, state := vs.2, dispatchTime := some wake }
  | (.dispatchNow, s1) =>
    let s2 := stepDispatch s1 key tCall tCall pid
    let r := fetchMarketDataModel apiKeyValid apiKeyMsg net key
    let vs := stepSettle s2 key r tSettle
    some { value := vs.1, state := vs.2, dispatchTime := some tCall }

/-- `clearAll()` of the `MarketDataClient` variant in config.ts (the
claims' own client file, marketDataClient.ts, has no such method): clears
the cache and request-state maps, clears every retry state through
`clearRetryState` (cancelling each pending timer), and zeroes the hit and
miss counters.  It does NOT reset `lastRequestDetails` or
`lastResponseDetails`.  The ghost `dispatchLog` is untouched (it is not
program state). -/
def clearAll (s : ClientState) : ClientState :=
  { s with
    cache := []
    requestStates := []
    retryStates := []
    cacheHits := 0
    cacheMisses := 0 }

/-! ### Sample collaborator results used in concrete runs -/

/-- The rate-limit result fetchMarketData.ts builds from an API `Note`. -/
def sampleRateLimit (t : String) : MarketDataError :=
  { ticker := t
    error := "API rate limit reached. Retrying automatically..."
    provider := MARKET_DATA_PROVIDER
    errorCode := .rate_limit
    isRateLimited := true
    rawResponse := some "Thank you for using Alpha Vantage!" }

/-- The network-error result fetchMarketData.ts builds from a thrown
fetch error. -/
def sampleNetworkFailure (t : String) : MarketDataError :=
  { ticker := t
    error := "Failed to fetch market data. Please try again."
    provider := MARKET_DATA_PROVIDER
    errorCode := .network_error
    isRateLimited := false
    rawResponse := none }

/-- A sample successful collaborator result. -/
def sampleSuccess (t : String) : MarketDataResult :=
  { ticker := t
    latestPrice := 123
    timestamp := "2026-10-10 16:00:00"
    isRealtime := true
    pricePoints := [{ timestamp := "2026-10-10 16:00:00", openP := 120,
                      high := 125, low := 119, close := 123, volume := 1000 }]
    provider := MARKET_DATA_PROVIDER }

/-! ### Claim C1 — backoff delays -/

/-- C1 (counterexample): the claim mandates backoff delays of 10 s, 30 s,
60 s for attempts 1–3; `calculateBackoffDelay` actually yields
10 s, 20 s, 40 s — attempts 2 and 3 refute the claimed values. -/
theorem c1_cex :
    calculateBackoffDelay 2 = 20000 ∧ calculateBackoffDelay 2 ≠ 30000 ∧
    calculateBackoffDelay 3 = 40000 ∧ calculateBackoffDelay 3 ≠ 60000 := by
  decide

/-- C1 (amended): for attempt counts 1, 2 and 3 the computed backoff delays
are exactly 10 000 ms, 20 000 ms and 40 000 ms
(`min(BASE_DELAY_MS·2^(n-1), MAX_DELAY_MS)` with base 10 s, cap 60 s), and
after the n-th rate-limit classification the stored `nextRetryTime` equals
`now` plus that delay: `handleRateLimit` creates the state with
`attemptCount = 1` and `nextRetryTime = now + calculateBackoffDelay 1` on
the first classification, and advances an existing state with
`attemptCount + 1 ≤ MAX_RETRIES` to
`nextRetryTime = now + calculateBackoffDelay (attemptCount + 1)`,
returning the rate-limit error unchanged. -/
theorem c1_amended :
    (calculateBackoffDelay 1 = 10000 ∧ calculateBackoffDelay 2 = 20000 ∧
      calculateBackoffDelay 3 = 40000) ∧
    (∀ (s : ClientState) (key : String) (now : Int) (e : MarketDataError),
      mapGet s.retryStates key = none →
      (handleRateLimit s key now e).1 = e ∧
      mapGet (handleRateLimit s key now e).2.retryStates key =
        some { attemptCount := 1
               nextRetryTime := some (now + calculateBackoffDelay 1)
               timeoutId := none }) ∧
    (∀ (s : ClientState) (key : String) (now : Int) (e : MarketDataError)
      (rs : RetryState),
      mapGet s.retryStates key = some rs →
      rs.attemptCount + 1 ≤ MAX_RETRIES →
      (handleRateLimit s key now e).1 = e ∧
      mapGet (handleRateLimit s key now e).2.retryStates key =
        some { attemptCount := rs.attemptCount + 1
               nextRetryTime := some (now + calculateBackoffDelay (rs.attemptCount + 1))
               timeoutId := rs.timeoutId }) := by
  refine ⟨by decide, ?_, ?_⟩
  · intro s key now e hget
    simp [handleRateLimit, hget, MAX_RETRIES, mapGet_mapSet]
  · intro s key now e rs hget hle
    have hnot : ¬rs.attemptCount + 1 > MAX_RETRIES := by omega
    simp [handleRateLimit, hget, hnot, mapGet_mapSet]

/-- C1 (witness): a concrete second rate-limit classification at
`now = 20000` on a state whose retry entry holds `attemptCount = 1` moves
the entry to `attemptCount = 2`, `nextRetryTime = 20000 + 20000`. -/
theorem c1_wit :
    (handleRateLimit
        { initialClientState with
            retryStates := [("TSLA", { attemptCount := 1, nextRetryTime := some 10000, timeoutId := none })] }
        "TSLA" 20000 (sampleRateLimit "TSLA")).1 = sampleRateLimit "TSLA" ∧
    mapGet (handleRateLimit
        { initialClientState with
            retryStates := [("TSLA", { attemptCount := 1, nextRetryTime := some 10000, timeoutId := none })] }
        "TSLA" 20000 (sampleRateLimit "TSLA")).2.retryStates "TSLA" =
      some { attemptCount := 2, nextRetryTime := some (20000 + calculateBackoffDelay 2), timeoutId := none } := by
  exact c1_amended.2.2
    { initialClientState with
        retryStates := [("TSLA", { attemptCount := 1, nextRetryTime := some 10000, timeoutId := none })] }
    "TSLA" 20000 (sampleRateLimit "TSLA")
    { attemptCount := 1, nextRetryTime := some 10000, timeoutId := none }
    (by decide) (by decide)

theorem mapSet_mapSet {α : Type} (m : List (String × α)) (k : String) (v w : α) :
    mapSet (mapSet m k v) k w = mapSet m k w := by
  induction m with
  | nil => simp [mapSet]
  | cons p rest ih =>
    by_cases hp : p.1 = k
    · simp [mapSet, hp]
    · simp [mapSet, hp, ih]

/-! ### Claim C2 — empty-ticker handling -/

/-- C2 (counterexample): `fetch("   ")` (normalized key `""`) on a fresh
client does NOT fail fast before dispatch with untouched state: the miss
counter becomes 1, a request-state entry appears under `""`, and a dispatch
to the raw collaborator is logged — the invalid-input error comes back from
the collaborator's own validation. -/
theorem c2_cex :
    (fetchSeq initialClientState "   " 0 0 true ""
        (.failure (sampleNetworkFailure "")) 1).map
      (fun run => (run.value, run.state.cacheMisses, run.state.requestStates,
                   run.state.dispatchLog))
    = some (.failure (invalidTickerResult ""), 1,
            [("", { lastRequestTime := 0, inFlightPromise := none })],
            [("", 0)]) := by
  rfl

/-- C2 (amended): for an input ticker whose normalized form is empty (with
no cache or request-state entry under `""` and a valid API key), `fetch`
dispatches once to the raw collaborator, which rejects the ticker before
any HTTP request and returns an `invalid_ticker` error (`isRateLimited =
false`); the cache map and retry-state map are unchanged, but the miss
counter increments, a request-state entry is recorded under the empty key,
and the diagnostic request/response descriptors are updated. -/
theorem c2_amended :
    ∀ (s : ClientState) (ticker : String) (tCall tSettle : Int)
      (apiKeyMsg : String) (net : FetchResult) (pid : Nat),
      normalizeTicker ticker = "" →
      mapGet s.cache "" = none →
      mapGet s.requestStates "" = none →
      fetchSeq s ticker tCall tSettle true apiKeyMsg net pid =
        some { value := .failure (invalidTickerResult "")
               state := { s with
                 cacheMisses := s.cacheMisses + 1
                 requestStates := mapSet s.requestStates ""
                   { lastRequestTime := tCall, inFlightPromise := none }
                 lastRequestDetails := some
                   { ticker := ""
                     url := "https://query1.finance.yahoo.com/v8/finance/chart/"
                       ++ "" ++ "?interval=5m&range=1d"
                     timestamp := tCall }
                 lastResponseDetails := some
                   (responseDetailsOf (.failure (invalidTickerResult "")) tSettle)
                 dispatchLog := s.dispatchLog ++ [("", tCall)] }
               dispatchTime := some tCall } := by
  intro s ticker tCall tSettle apiKeyMsg net pid hnorm hcache hreq
  have hfmt : validTickerFormat "" = false := by decide
  have hnorm0 : normalizeTicker "" = "" := by decide
  simp [fetchSeq, stepA, stepAMiss, stepDispatch, stepSettle, clearInFlight,
    fetchMarketDataModel, hnorm, hnorm0, hcache, hreq, hfmt, mapGet_mapSet,
    mapSet_mapSet, invalidTickerResult, responseDetailsOf]

/-- C2 (witness): the amended statement instantiated on a fresh client with
ticker `"   "`, call time 0 and settle time 5. -/
theorem c2_wit :
    fetchSeq initialClientState "   " 0 5 true "" (.failure (sampleNetworkFailure "")) 1 =
      some { value := .failure (invalidTickerResult "")
             state := { initialClientState with
               cacheMisses := initialClientState.cacheMisses + 1
               requestStates := mapSet initialClientState.requestStates ""
                 { lastRequestTime := 0, inFlightPromise := none }
               lastRequestDetails := some
                 { ticker := ""
                   url := "https://query1.finance.yahoo.com/v8/finance/chart/"
                     ++ "" ++ "?interval=5m&range=1d"
                   timestamp := 0 }
               lastResponseDetails := some
                 (responseDetailsOf (.failure (invalidTickerResult "")) 5)
               dispatchLog := initialClientState.dispatchLog ++ [("", 0)] }
             dispatchTime := some 0 } :=
  c2_amended initialClientState "   " 0 5 "" (.failure (sampleNetworkFailure "")) 1
    (by decide) rfl rfl

/-! ### Normalization is the identity on already-valid keys -/

/-- C5 (code bug): `fetch(" aapl ")` hitting a rate limit stores retry
state under the normalized key `"AAPL"`, and `getRetryState(" aapl ")`
finds it (both normalize) — but `scheduleRetry(" aapl ", cb)` looks the
retry map up with the RAW ticker, finds nothing, and is a no-op, while the
same call with the already-normalized ticker arms the timer.  The claim
(and the spec's normalization invariant) requires all three operations to
address the normalized entry. -/
theorem c5_schedule_raw_key :
    (let s1 := (stepSettle
        (stepDispatch (stepA initialClientState " aapl " 0).2 "AAPL" 0 0 1)
        "AAPL" (.failure (sampleRateLimit "AAPL")) 100).2
     mapGet s1.retryStates "AAPL" =
        some { attemptCount := 1, nextRetryTime := some 10100, timeoutId := none } ∧
     getRetryState s1 " aapl " =
        some { attemptCount := 1, nextRetryTime := some 10100, timeoutId := none } ∧
     scheduleRetry s1 " aapl " 7 = s1 ∧
     mapGet (scheduleRetry s1 "AAPL" 7).retryStates "AAPL" =
        some { attemptCount := 1, nextRetryTime := some 10100, timeoutId := some 7 }) := by
  decide

/-! ### Claim C6 — cache TTL -/

/-- C6: (a) a fetch whose key has a cache entry younger than `CACHE_TTL_MS`
returns the stored result with no dispatch and no state change besides the
hit counter; (b) a fetch whose key's entry is at least `CACHE_TTL_MS` old —
and to which no in-flight or spacing condition applies: whatever request
state the key has (if any) holds no in-flight promise and a
`lastRequestTime` at least `MIN_REQUEST_INTERVAL_MS` in the past — performs
a new network dispatch at call time. -/
theorem c6_cache_ttl :
    (∀ (s : ClientState) (ticker : String) (tCall tSettle : Int)
      (akv : Bool) (msg : String) (net : FetchResult) (pid : Nat) (c : CacheEntry),
      mapGet s.cache (normalizeTicker ticker) = some c →
      tCall - c.timestamp < CACHE_TTL_MS →
      fetchSeq s ticker tCall tSettle akv msg net pid =
        some { value := .success c.result
               state := { s with cacheHits := s.cacheHits + 1 }
               dispatchTime := none }) ∧
    (∀ (s : ClientState) (ticker : String) (tCall tSettle : Int)
      (akv : Bool) (msg : String) (net : FetchResult) (pid : Nat) (c : CacheEntry),
      mapGet s.cache (normalizeTicker ticker) = some c →
      CACHE_TTL_MS ≤ tCall - c.timestamp →
      (∀ rs, mapGet s.requestStates (normalizeTicker ticker) = some rs →
        rs.inFlightPromise = none ∧
        MIN_REQUEST_INTERVAL_MS ≤ tCall - rs.lastRequestTime) →
      (fetchSeq s ticker tCall tSettle akv msg net pid).map FetchRun.dispatchTime =
        some (some tCall)) := by
  constructor
  · intro s ticker tCall tSettle akv msg net pid c hc hfresh
    simp [fetchSeq, stepA, hc, hfresh]
  · intro s ticker tCall tSettle akv msg net pid c hc hexp hreq
    have hnot : ¬(tCall - c.timestamp < CACHE_TTL_MS) := by omega
    cases hrs : mapGet s.requestStates (normalizeTicker ticker) with
    | none => simp [fetchSeq, stepA, stepAMiss, hc, hnot, hrs]
    | some rs =>
      obtain ⟨hin, hsp⟩ := hreq rs hrs
      have hnot2 : ¬(tCall - rs.lastRequestTime < MIN_REQUEST_INTERVAL_MS) := by omega
      simp [fetchSeq, stepA, stepAMiss, hc, hnot, hrs, hin, hnot2]

/-- C6 (witness): with a cache entry for "AAPL" stored at t = 0 and the
request state that same settled fetch left behind
(`lastRequestTime = 0`, no in-flight promise), a fetch at t = 59 000 is a
pure cache hit, and a fetch at t = 61 000 dispatches at 61 000. -/
theorem c6_cache_ttl_wit :
    (fetchSeq
        { initialClientState with
            cache := [("AAPL", { result := sampleSuccess "AAPL", timestamp := 0 })]
            requestStates := [("AAPL", { lastRequestTime := 0, inFlightPromise := none })] }
        "AAPL" 59000 59100 true "" (.success (sampleSuccess "AAPL")) 1 =
      some { value := .success (sampleSuccess "AAPL")
             state := { { initialClientState with
                 cache := [("AAPL", { result := sampleSuccess "AAPL", timestamp := 0 })]
                 requestStates := [("AAPL", { lastRequestTime := 0, inFlightPromise := none })] } with
               cacheHits := { initialClientState with
                 cache := [("AAPL", { result := sampleSuccess "AAPL", timestamp := 0 })]
                 requestStates := [("AAPL", { lastRequestTime := 0, inFlightPromise := none })] }.cacheHits + 1 }
             dispatchTime := none }) ∧
    ((fetchSeq
        { initialClientState with
            cache := [("AAPL", { result := sampleSuccess "AAPL", timestamp := 0 })]
            requestStates := [("AAPL", { lastRequestTime := 0, inFlightPromise := none })] }
        "AAPL" 61000 61100 true "" (.success (sampleSuccess "AAPL")) 1).map
      FetchRun.dispatchTime = some (some 61000)) :=
  ⟨c6_cache_ttl.1
      { initialClientState with
          cache := [("AAPL", { result := sampleSuccess "AAPL", timestamp := 0 })]
          requestStates := [("AAPL", { lastRequestTime := 0, inFlightPromise := none })] }
      "AAPL" 59000 59100 true "" (.success (sampleSuccess "AAPL")) 1
      { result := sampleSuccess "AAPL", timestamp := 0 } (by decide) (by decide),
   c6_cache_ttl.2
      { initialClientState with
          cache := [("AAPL", { result := sampleSuccess "AAPL", timestamp := 0 })]
          requestStates := [("AAPL", { lastRequestTime := 0, inFlightPromise := none })] }
      "AAPL" 61000 61100 true "" (.success (sampleSuccess "AAPL")) 1
      { result := sampleSuccess "AAPL", timestamp := 0 } (by decide) (by decide)
      (fun rs hrs => by
        cases hrs
        exact ⟨rfl, by decide⟩)⟩

/-! ### Claim C7 — minimum spacing between dispatches -/

/-- C7 (code bug): `fetch` records `lastRequestTime` as the timestamp
captured at `fetch`'s ENTRY, not at the actual dispatch, so the spacing
check under-counts after a spacing wait.  Concrete trace for "GOOG"
(errors, so nothing is cached): call 1 arrives at t=0 and dispatches at
t=0; call 2 arrives at t=2000, sleeps to t=5000 and dispatches there, but
stores `lastRequestTime = 2000`; call 3 arrives at t=7000, sees
`7000 − 2000 ≥ MIN_REQUEST_INTERVAL_MS`, and dispatches immediately — only
2000 ms after the previous dispatch, violating the claimed 5-second
minimum gap between consecutive dispatches. -/
theorem c7_spacing_violation :
    (let s1 := (stepSettle
        (stepDispatch (stepA initialClientState "GOOG" 0).2 "GOOG" 0 0 1)
        "GOOG" (.failure (sampleNetworkFailure "GOOG")) 1000).2
     let a2 := stepA s1 "GOOG" 2000
     let s2 := (stepSettle (stepDispatch a2.2 "GOOG" 2000 5000 2)
        "GOOG" (.failure (sampleNetworkFailure "GOOG")) 5500).2
     let a3 := stepA s2 "GOOG" 7000
     let s3 := stepDispatch a3.2 "GOOG" 7000 7000 3
     a2.1 = .sleep 5000 ∧
     a3.1 = .dispatchNow ∧
     s3.dispatchLog = [("GOOG", 0), ("GOOG", 5000), ("GOOG", 7000)] ∧
     (7000 : Int) - 5000 < MIN_REQUEST_INTERVAL_MS) := by
  decide

/-! ### Claim C3 — in-flight de-duplication -/

/-- C3 (counterexample): two concurrent `fetch("MSFT")` calls, both issued
before either settles, can BOTH dispatch.  After an earlier errored request
(dispatched at t=0, settled at t=1000, nothing cached), a call at t=2000
and a call at t=2500 each pass the in-flight check (nothing is in flight)
and each enter the spacing wait (both waking at t=5000, since the stored
`lastRequestTime` is still 0); the code after the wait dispatches
unconditionally without re-checking the in-flight handle, so the pair
produces TWO dispatches at t=5000 instead of the claimed exactly one. -/
theorem c3_concurrent_two_dispatches :
    (let s1 := (stepSettle
        (stepDispatch (stepA initialClientState "MSFT" 0).2 "MSFT" 0 0 1)
        "MSFT" (.failure (sampleNetworkFailure "MSFT")) 1000).2
     let a2 := stepA s1 "MSFT" 2000
     let a3 := stepA a2.2 "MSFT" 2500
     let s4 := stepDispatch a3.2 "MSFT" 2000 5000 2
     let s5 := stepDispatch s4 "MSFT" 2500 5000 3
     a2.1 = .sleep 5000 ∧ a3.1 = .sleep 5000 ∧
     s5.dispatchLog = [("MSFT", 0), ("MSFT", 5000), ("MSFT", 5000)]) := by
  decide

/-- C3 (amended): the de-duplication guarantee holds for the in-flight
window: a second `fetch` for the same normalized key that runs its
synchronous prefix after the first call has dispatched (the in-flight
handle is set) and before the first settles — and finds no fresh cache
entry — performs no dispatch and returns the first call's pending promise.
Two concurrent calls that BOTH enter the spacing-wait suspension before
either dispatches are not covered and can each dispatch (see the
counterexample). -/
theorem c3_dedup_inflight :
    ∀ (s : ClientState) (ticker : String) (now : Int) (pid : Nat) (rs : RequestState),
      (∀ c, mapGet s.cache (normalizeTicker ticker) = some c →
        CACHE_TTL_MS ≤ now - c.timestamp) →
      mapGet s.requestStates (normalizeTicker ticker) = some rs →
      rs.inFlightPromise = some pid →
      stepA s ticker now =
        (.awaitExisting pid, { s with cacheMisses := s.cacheMisses + 1 }) := by
  intro s ticker now pid rs hcache hreq hin
  cases hc : mapGet s.cache (normalizeTicker ticker) with
  | none => simp [stepA, stepAMiss, hc, hreq, hin]
  | some c =>
    have hold := hcache c hc
    have hnot : ¬(now - c.timestamp < CACHE_TTL_MS) := by omega
    simp [stepA, stepAMiss, hc, hnot, hreq, hin]

/-- C3 (witness): with promise 1 in flight for "MSFT" and an empty cache, a
second call's synchronous prefix at t = 100 returns the pending promise and
only bumps the miss counter. -/
theorem c3_dedup_inflight_wit :
    stepA
      { initialClientState with
          requestStates := [("MSFT", { lastRequestTime := 0, inFlightPromise := some 1 })] }
      "MSFT" 100 =
    (.awaitExisting 1,
     { { initialClientState with
           requestStates := [("MSFT", { lastRequestTime := 0, inFlightPromise := some 1 })] } with
       cacheMisses := { initialClientState with
           requestStates := [("MSFT", { lastRequestTime := 0, inFlightPromise := some 1 })] }.cacheMisses + 1 }) :=
  c3_dedup_inflight
    { initialClientState with
        requestStates := [("MSFT", { lastRequestTime := 0, inFlightPromise := some 1 })] }
    "MSFT" 100 1 { lastRequestTime := 0, inFlightPromise := some 1 }
    (fun c hc => by cases hc) (by decide) rfl

/-! ### Claim C8 — clearAll -/

/-- C8 (counterexample): `clearAll` does not restore the freshly
constructed state and `getDiagnostics` afterwards does not report empty
descriptors: after one dispatch for "AAPL", `clearAll` retains the
last-request descriptor, which the diagnostics snapshot still shows
(`initialClientState.lastRequestDetails` is `none`). -/
theorem c8_cex :
    (clearAll (stepDispatch initialClientState "AAPL" 0 0 1)).lastRequestDetails =
      some { ticker := "AAPL"
             url := "https://query1.finance.yahoo.com/v8/finance/chart/AAPL?interval=5m&range=1d"
             timestamp := 0 } ∧
    (getDiagnostics (clearAll (stepDispatch initialClientState "AAPL" 0 0 1)) 5).lastRequest ≠
      initialClientState.lastRequestDetails := by
  decide

/-- C8 (amended): after `clearAll()` every cache entry, request state and
retry state is dropped (each pending retry timer being cancelled) and the
hit/miss counters are zeroed, so `getDiagnostics()` afterwards reports
zero cache entries, zero retry entries and zero counters; the last-request
and last-response descriptors are retained, so the coordinator is not
identical to a freshly constructed one once any request has been
dispatched. -/
theorem c8_clearAll :
    ∀ (s : ClientState) (now : Int),
      (clearAll s).cache = [] ∧
      (clearAll s).requestStates = [] ∧
      (clearAll s).retryStates = [] ∧
      (clearAll s).cacheHits = 0 ∧
      (clearAll s).cacheMisses = 0 ∧
      (clearAll s).lastRequestDetails = s.lastRequestDetails ∧
      (clearAll s).lastResponseDetails = s.lastResponseDetails ∧
      getDiagnostics (clearAll s) now =
        { lastRequest := s.lastRequestDetails
          lastResponse := s.lastResponseDetails
          entries := 0
          hits := 0
          misses := 0
          cacheEntries := []
          retryHistory := [] } :=
  fun _ _ => ⟨rfl, rfl, rfl, rfl, rfl, rfl, rfl, rfl⟩

/-! ### Claim C9 — diagnostics purity -/

theorem jsRound1000_mono {a b : Int} (h : a ≤ b) :
    jsRound1000 a ≤ jsRound1000 b := by
  unfold jsRound1000
  rw [Int.fdiv_eq_ediv _ (by decide), Int.fdiv_eq_ediv _ (by decide)]
  exact Int.ediv_le_ediv (by decide) (by omega)

/-- C9: `getDiagnostics` mutates nothing (the method call returns the
receiver unchanged); two calls on the same state agree on all
non-time-derived content (descriptors, counters, entry count, tickers,
attempt counts, stored `nextRetryTime`s); and the time-derived fields are
recomputed from the clock of each call — concretely, with `t1 ≤ t2`, every
cache entry's reported age is non-decreasing and its TTL-remainder
non-increasing from the first call to the second, and every retry entry's
backoff-remainder is non-increasing. -/
theorem c9_diagnostics_pure :
    ∀ (s : ClientState) (t1 t2 : Int),
      getDiagnosticsOp s t1 = (getDiagnostics s t1, s) ∧
      ((getDiagnostics s t1).lastRequest = (getDiagnostics s t2).lastRequest ∧
       (getDiagnostics s t1).lastResponse = (getDiagnostics s t2).lastResponse ∧
       (getDiagnostics s t1).entries = (getDiagnostics s t2).entries ∧
       (getDiagnostics s t1).hits = (getDiagnostics s t2).hits ∧
       (getDiagnostics s t1).misses = (getDiagnostics s t2).misses ∧
       (getDiagnostics s t1).cacheEntries.map DiagCacheEntry.ticker =
         (getDiagnostics s t2).cacheEntries.map DiagCacheEntry.ticker ∧
       (getDiagnostics s t1).retryHistory.map
           (fun e => (e.ticker, e.attemptCount, e.nextRetryTime)) =
         (getDiagnostics s t2).retryHistory.map
           (fun e => (e.ticker, e.attemptCount, e.nextRetryTime))) ∧
      (t1 ≤ t2 →
        List.Forall₂
          (fun e1 e2 => e1.age ≤ e2.age ∧ e2.ttlRemaining ≤ e1.ttlRemaining)
          (getDiagnostics s t1).cacheEntries (getDiagnostics s t2).cacheEntries ∧
        List.Forall₂
          (fun e1 e2 => ∀ b1 b2, e1.backoffDelay = some b1 →
            e2.backoffDelay = some b2 → b2 ≤ b1)
          (getDiagnostics s t1).retryHistory (getDiagnostics s t2).retryHistory) := by
  intro s t1 t2
  refine ⟨rfl, ⟨rfl, rfl, rfl, rfl, rfl, ?_, ?_⟩, ?_⟩
  · simp [getDiagnostics, List.map_map, Function.comp]
  · simp [getDiagnostics, List.map_map, Function.comp]
  · intro h12
    constructor
    · simp only [getDiagnostics, List.forall₂_map_left_iff, List.forall₂_map_right_iff]
      rw [List.forall₂_same]
      intro p _
      exact ⟨jsRound1000_mono (by omega),
             max_le_max (le_refl 0) (jsRound1000_mono (by omega))⟩
    · simp only [getDiagnostics, List.forall₂_map_left_iff, List.forall₂_map_right_iff]
      rw [List.forall₂_same]
      intro p _
      intro b1 b2 hb1 hb2
      cases hnr : p.2.nextRetryTime with
      | none => simp [hnr] at hb1
      | some t =>
        by_cases ht : t = 0
        · simp [hnr, ht] at hb1
        · simp [hnr, ht] at hb1 hb2
          subst hb1; subst hb2
          exact jsRound1000_mono (by omega)

/-- C9 (witness): the monotonicity conjunct instantiated on a state with
one cache entry and one retry entry, at call times 1000 ≤ 2000. -/
theorem c9_diagnostics_pure_wit :
    List.Forall₂
      (fun e1 e2 => e1.age ≤ e2.age ∧ e2.ttlRemaining ≤ e1.ttlRemaining)
      (getDiagnostics
        { initialClientState with
            cache := [("AAPL", { result := sampleSuccess "AAPL", timestamp := 0 })]
            retryStates := [("GOOG", { attemptCount := 1, nextRetryTime := some 10000, timeoutId := none })] }
        1000).cacheEntries
      (getDiagnostics
        { initialClientState with
            cache := [("AAPL", { result := sampleSuccess "AAPL", timestamp := 0 })]
            retryStates := [("GOOG", { attemptCount := 1, nextRetryTime := some 10000, timeoutId := none })] }
        2000).cacheEntries :=
  ((c9_diagnostics_pure
      { initialClientState with
          cache := [("AAPL", { result := sampleSuccess "AAPL", timestamp := 0 })]
          retryStates := [("GOOG", { attemptCount := 1, nextRetryTime := some 10000, timeoutId := none })] }
      1000 2000).2.2 (by decide)).1

/-! ### Claim C10 — retry-state invariant over reachable states -/

/-- The invariant on a retry-state map: every stored entry satisfies
`1 ≤ attemptCount ≤ MAX_RETRIES` and has a non-null `nextRetryTime`. -/
def RetryInvL (m : List (String × RetryState)) : Prop :=
  ∀ k rs, mapGet m k = some rs →
    1 ≤ rs.attemptCount ∧ rs.attemptCount ≤ MAX_RETRIES ∧ rs.nextRetryTime ≠ none

/-- One atomic coordinator mutation: a synchronous segment of `fetch`
(prefix, dispatch block or settle block) or a `scheduleRetry` call, with
arbitrary parameters — a superset of the schedules the event loop can
actually produce, so an invariant over it covers every real run. -/
inductive Step : ClientState → ClientState → Prop where
  | segA (s : ClientState) (ticker : String) (now : Int) :
      Step s (stepA s ticker now).2
  | dispatch (s : ClientState) (key : String) (tArrival tReal : Int) (pid : Nat) :
      Step s (stepDispatch s key tArrival tReal pid)
  | settle (s : ClientState) (key : String) (r : FetchResult) (now : Int) :
      Step s (stepSettle s key r now).2
  | schedule (s : ClientState) (ticker : String) (id : Nat) :
      Step s (scheduleRetry s ticker id)

/-- States a coordinator can reach from fresh construction. -/
inductive ReachableState : ClientState → Prop where
  | init : ReachableState initialClientState
  | step {s t : ClientState} : ReachableState s → Step s t → ReachableState t

theorem stepAMiss_retryStates (s : ClientState) (key : String)
    (cached : Option CacheEntry) (now : Int) :
    (stepAMiss s key cached now).2.retryStates = s.retryStates := by
  unfold stepAMiss
  dsimp only
  repeat' split
  all_goals rfl

theorem stepA_retryStates (s : ClientState) (ticker : String) (now : Int) :
    (stepA s ticker now).2.retryStates = s.retryStates := by
  unfold stepA
  dsimp only
  split
  · split
    · rfl
    · rw [stepAMiss_retryStates]
  · rw [stepAMiss_retryStates]

theorem handleRateLimit_retryStates (s : ClientState) (ticker : String)
    (now : Int) (e : MarketDataError) :
    (handleRateLimit s ticker now e).2.retryStates =
      (let prev := (mapGet s.retryStates ticker).getD
        { attemptCount := 0, nextRetryTime := none, timeoutId := none }
       if prev.attemptCount + 1 > MAX_RETRIES then
         mapDelete s.retryStates ticker
       else
         mapSet s.retryStates ticker
           { attemptCount := prev.attemptCount + 1
             nextRetryTime := some (now + calculateBackoffDelay (prev.attemptCount + 1))
             timeoutId := prev.timeoutId }) := by
  unfold handleRateLimit clearRetryState
  dsimp only
  split <;> rfl

theorem stepSettle_retryStates (s : ClientState) (key : String)
    (r : FetchResult) (now : Int) :
    (stepSettle s key r now).2.retryStates =
      (match r with
       | .failure e =>
         if e.isRateLimited then
           (let prev := (mapGet s.retryStates key).getD
             { attemptCount := 0, nextRetryTime := none, timeoutId := none }
            if prev.attemptCount + 1 > MAX_RETRIES then
              mapDelete s.retryStates key
            else
              mapSet s.retryStates key
                { attemptCount := prev.attemptCount + 1
                  nextRetryTime := some (now + calculateBackoffDelay (prev.attemptCount + 1))
                  timeoutId := prev.timeoutId })
         else s.retryStates
       | .success _ => mapDelete s.retryStates key) := by
  cases r with
  | failure e =>
    by_cases h : e.isRateLimited = true
    · simp only [stepSettle, h, if_true]
      rw [handleRateLimit_retryStates]
    · simp only [stepSettle, h, if_false]
      simp at h
      simp [h]
  | success m => rfl

theorem retryInvL_delete {m : List (String × RetryState)} (h : RetryInvL m)
    (key : String) : RetryInvL (mapDelete m key) := by
  intro k rs hk
  rw [mapGet_mapDelete] at hk
  by_cases hkk : k = key
  · simp [hkk] at hk
  · simp [hkk] at hk
    exact h k rs hk

theorem retryInvL_set {m : List (String × RetryState)} (h : RetryInvL m)
    (key : String) (v : RetryState)
    (hv : 1 ≤ v.attemptCount ∧ v.attemptCount ≤ MAX_RETRIES ∧ v.nextRetryTime ≠ none) :
    RetryInvL (mapSet m key v) := by
  intro k rs hk
  rw [mapGet_mapSet] at hk
  by_cases hkk : k = key
  · simp [hkk] at hk
    subst hk
    exact hv
  · simp [hkk] at hk
    exact h k rs hk

theorem scheduleRetry_retryStates (s : ClientState) (ticker : String) (id : Nat) :
    (scheduleRetry s ticker id).retryStates =
      (match mapGet s.retryStates ticker with
       | none => s.retryStates
       | some rs =>
         match rs.nextRetryTime with
         | none => s.retryStates
         | some t =>
           if t = 0 then s.retryStates
           else mapSet s.retryStates ticker { rs with timeoutId := some id }) := by
  unfold scheduleRetry
  dsimp only
  split
  · rfl
  · split
    · rfl
    · split <;> rfl

theorem retryInvL_step {s t : ClientState} (hstep : Step s t)
    (h : RetryInvL s.retryStates) : RetryInvL t.retryStates := by
  cases hstep with
  | segA ticker now => rw [stepA_retryStates]; exact h
  | dispatch key tA tR pid => exact h
  | settle key r now =>
    rw [stepSettle_retryStates]
    cases r with
    | failure e =>
      by_cases hrl : e.isRateLimited = true
      · simp only [hrl, if_true]
        by_cases hover :
            ((mapGet s.retryStates key).getD
              { attemptCount := 0, nextRetryTime := none, timeoutId := none }).attemptCount + 1 >
            MAX_RETRIES
        · simp only [hover, if_true]
          exact retryInvL_delete h key
        · simp only [hover, if_false]
          refine retryInvL_set h key _ ⟨?_, ?_, ?_⟩
          · dsimp only
            omega
          · dsimp only
            omega
          · dsimp only
            simp
      · simp [hrl]
        exact h
    | success m => exact retryInvL_delete h key
  | schedule ticker id =>
    rw [scheduleRetry_retryStates]
    split
    · exact h
    · rename_i rs heq1
      split
      · exact h
      · rename_i t0 heq2
        split
        · exact h
        · have hrs := h ticker rs heq1
          refine retryInvL_set h ticker _ ⟨hrs.1, hrs.2.1, ?_⟩
          simp [heq2]

/-- C10 (amended): in every reachable coordinator state, every stored
RetryState satisfies `1 ≤ attemptCount ≤ MAX_RETRIES` and
`nextRetryTime ≠ null`, so `getRetryState` never returns a snapshot with
`attemptCount = 0`, `attemptCount > MAX_RETRIES`, or a null
`nextRetryTime`: `handleRateLimit` only ever stores entries with these
bounds, exceeding the maximum deletes the entry, and a successful fetch
deletes it (a non-rate-limit error, contrary to the claim's rationale,
leaves it untouched — which cannot break the bounds). -/
theorem c10_retry_invariant :
    ∀ (s : ClientState), ReachableState s →
      ∀ (ticker : String) (rs : RetryState),
        getRetryState s ticker = some rs →
        1 ≤ rs.attemptCount ∧ rs.attemptCount ≤ MAX_RETRIES ∧
        rs.nextRetryTime ≠ none := by
  have main : ∀ (s : ClientState), ReachableState s → RetryInvL s.retryStates := by
    intro s hreach
    induction hreach with
    | init => intro k rs hk; cases hk
    | step _ hstep ih => exact retryInvL_step hstep ih
  intro s hreach ticker rs hget
  exact main s hreach (normalizeTicker ticker) rs hget

/-- C10 (witness): one dispatched-and-settled rate-limit cycle for "AAPL"
reaches a state whose retry entry the theorem bounds. -/
theorem c10_retry_invariant_wit :
    1 ≤ (RetryState.mk 1 (some 10100) none).attemptCount ∧
    (RetryState.mk 1 (some 10100) none).attemptCount ≤ MAX_RETRIES ∧
    (RetryState.mk 1 (some 10100) none).nextRetryTime ≠ none :=
  c10_retry_invariant _
    (ReachableState.step
      (ReachableState.step
        (ReachableState.step ReachableState.init
          (Step.segA initialClientState "AAPL" 0))
        (Step.dispatch (stepA initialClientState "AAPL" 0).2 "AAPL" 0 0 1))
      (Step.settle
        (stepDispatch (stepA initialClientState "AAPL" 0).2 "AAPL" 0 0 1)
        "AAPL" (.failure (sampleRateLimit "AAPL")) 100))
    "AAPL" (RetryState.mk 1 (some 10100) none) (by decide)

/-- C10 (counterexample to the claim's deletion rationale): after a
rate-limit error creates retry state for "AAPL", a later NON-rate-limit
error (network failure) settles without deleting it — the claim's "any
success or non-rate-limit error deletes it too" is false on the code,
which clears retry state only on success or on exhaustion. -/
theorem c10_nonratelimit_keeps_state :
    (let s1 := (stepSettle
        (stepDispatch (stepA initialClientState "AAPL" 0).2 "AAPL" 0 0 1)
        "AAPL" (.failure (sampleRateLimit "AAPL")) 100).2
     let s2 := (stepSettle
        (stepDispatch (stepA s1 "AAPL" 6000).2 "AAPL" 6000 6000 2)
        "AAPL" (.failure (sampleNetworkFailure "AAPL")) 6100).2
     mapGet s2.retryStates "AAPL" =
       some { attemptCount := 1, nextRetryTime := some 10100, timeoutId := none }) := by
  decide
